import Mathlib

/-!
Shallow embedding of `tools/bench.py`, the benchmark orchestrator of the
`ssg` repository, together with proofs of the specified properties.

The Python program is single-threaded and effectful only through
`print`/`subprocess.call`/`os.environ`; we model an execution as a pure
value: an exit code, a trace of observable events (stdout prints, stderr
prints, environment copies, child-process invocations) and the final state
of the process's own environment.  Child exit statuses are an input of the
model: an oracle `child : Nat → Nat` gives the exit code of the i-th
spawned process (exit statuses are modelled as natural numbers).
-/

set_option autoImplicit false

namespace Bench

/-- One observable step of the program.
`print` is a line written to stdout, `eprint` a line written to stderr,
`envCopy` records an evaluation of `os.environ.copy()`, and
`exec cmd env` records `subprocess.call(cmd, ...)`: `env = some e` when an
explicit environment `e` is passed (`subprocess.call(cmd, cwd=…, env=env)`),
`env = none` when the child simply inherits the process environment
(`subprocess.call(cmd, cwd=…)`). -/
inductive Event where
  | print (s : String)
  | eprint (s : String)
  | envCopy
  | exec (cmd : List String) (env : Option (List (String × String)))
  deriving DecidableEq, Repr

/-- Python `dict` lookup on an association list (first match by key),
`table[k]` / `table.get(k)`. -/
def dictGet (table : List (String × String)) (k : String) : Option String :=
  (table.find? (fun p => p.1 == k)).map Prod.snd

/-- Python `d.get(k, default)`. -/
def dictGetD (table : List (String × String)) (k d : String) : String :=
  (dictGet table k).getD d

/-- Python `d[k] = v` on a dict represented as an association list in
insertion order: an existing key keeps its position and gets the new value,
a new key is appended at the end. -/
def dictSet (env : List (String × String)) (k v : String) : List (String × String) :=
  match env with
  | [] => [(k, v)]
  | (k2, v2) :: rest =>
    if k2 == k then (k2, v) :: rest else (k2, v2) :: dictSet rest k v

/-- `CRITERION_BENCHES` from `tools/bench.py` (a dict literal; association
list in declaration order). -/
def CRITERION_BENCHES : List (String × String) :=
  [("pipeline", "criterion_pipeline"),
   ("transformers", "criterion_transformers"),
   ("io", "criterion_io")]

/-- `DHAT_BENCHES` from `tools/bench.py`. -/
def DHAT_BENCHES : List (String × String) :=
  [("build", "dhat_build"),
   ("transformers", "dhat_transformers"),
   ("compress", "dhat_compress")]

/-- The `RunArgs` dataclass. -/
structure RunArgs where
  bench : String
  native : Bool
  extra : List String
  deriving Repr

/-- The `DhatArgs` dataclass. -/
structure DhatArgs where
  bench : String
  extra : List String
  deriving Repr

/-- `benches_to_run(selected, table)`: `"all"` expands to
`list(table.values())`; otherwise `[table[selected]]`, where a missing key
raises `KeyError` (modelled as `Except.error` carrying the key). -/
def benches_to_run (selected : String) (table : List (String × String)) :
    Except String (List String) :=
  if selected == "all" then
    Except.ok (table.map Prod.snd)
  else
    match dictGet table selected with
    | some v => Except.ok [v]
    | none => Except.error selected

/-- Result of one handler call: the returned exit code, the trace of
observable events, and the process's own environment (`os.environ`) after
the handler finishes. -/
structure HandleResult where
  code : Nat
  events : List Event
  osEnviron : List (String × String)
  deriving Repr

/-- The loop body of `handle_run`: for each bench, build
`cmd = ["cargo", "bench", "--bench", bench] + extra`, print the
announcement line, spawn the child with the prepared environment `envD`,
and fold the child's exit code into the accumulator with `code |= ret`.
`i` is the index of the next spawn, used to query the `child` oracle. -/
def runLoop (envD : List (String × String)) (extra : List String)
    (child : Nat → Nat) :
    List String → Nat → Nat → Nat × List Event
  | [], _, code => (code, [])
  | bench :: rest, i, code =>
    let cmd := ["cargo", "bench", "--bench", bench] ++ extra
    let ret := child i
    let next := runLoop envD extra child rest (i + 1) (Nat.lor code ret)
    (next.1,
      Event.print ("\n=== Running " ++ bench ++ " ===")
        :: Event.exec cmd (some envD) :: next.2)

/-- The environment dict prepared at the top of `handle_run`: the copy of
`os.environ` (`env = os.environ.copy()`, value-equal to the inherited
environment), with
`env["RUSTFLAGS"] = env.get("RUSTFLAGS", "") + " -C target-cpu=native"`
applied when `--native` was given. -/
def runEnvD (osEnv : List (String × String)) (native : Bool) :
    List (String × String) :=
  if native then
    dictSet osEnv "RUSTFLAGS"
      (dictGetD osEnv "RUSTFLAGS" "" ++ " -C target-cpu=native")
  else osEnv

/-- `handle_run`, generalised over the registry table (the source
instantiates it with `CRITERION_BENCHES`, see `handle_run`):
copies `os.environ`, appends `" -C target-cpu=native"` to `RUSTFLAGS` in
the copy when `--native` was given, resolves the selection, errors with
exit code 1 on an empty resolution, and otherwise runs every bench
sequentially, OR-ing the exit codes.  An unknown key propagates as the
`KeyError` of `benches_to_run` (an uncaught Python exception). -/
def handle_run_table (table : List (String × String))
    (osEnv : List (String × String)) (child : Nat → Nat) (args : RunArgs) :
    Except String HandleResult :=
  let envD := runEnvD osEnv args.native
  match benches_to_run args.bench table with
  | Except.error k => Except.error k
  | Except.ok benches =>
    if benches.isEmpty then
      Except.ok
        { code := 1,
          events := [Event.envCopy, Event.eprint "No criterion benches selected."],
          osEnviron := osEnv }
    else
      let loop := runLoop envD args.extra child benches 0 0
      Except.ok
        { code := loop.1,
          events := Event.envCopy :: loop.2,
          osEnviron := osEnv }

/-- `handle_run` as in the source: `handle_run_table` at `CRITERION_BENCHES`. -/
def handle_run (osEnv : List (String × String)) (child : Nat → Nat)
    (args : RunArgs) : Except String HandleResult :=
  handle_run_table CRITERION_BENCHES osEnv child args

/-- The command vector built in the `handle_dhat` loop:
`cmd = ["cargo", "bench", "--bench", bench, "--"]`, then
`if not extra: cmd.append("--profile")`, then `cmd.extend(extra)`. -/
def dhatCmd (bench : String) (extra : List String) : List String :=
  ["cargo", "bench", "--bench", bench, "--"]
    ++ (if extra.isEmpty then ["--profile"] else []) ++ extra

/-- The loop body of `handle_dhat`: announcement print, then a spawn that
inherits the process environment (no `env=` argument). -/
def dhatLoop (extra : List String) (child : Nat → Nat) :
    List String → Nat → Nat → Nat × List Event
  | [], _, code => (code, [])
  | bench :: rest, i, code =>
    let ret := child i
    let next := dhatLoop extra child rest (i + 1) (Nat.lor code ret)
    (next.1,
      Event.print ("\n=== Running " ++ bench ++ " ===")
        :: Event.exec (dhatCmd bench extra) none :: next.2)

/-- `handle_dhat`, generalised over the registry table (the source
instantiates it with `DHAT_BENCHES`, see `handle_dhat`). -/
def handle_dhat_table (table : List (String × String))
    (osEnv : List (String × String)) (child : Nat → Nat) (args : DhatArgs) :
    Except String HandleResult :=
  match benches_to_run args.bench table with
  | Except.error k => Except.error k
  | Except.ok benches =>
    if benches.isEmpty then
      Except.ok
        { code := 1,
          events := [Event.eprint "No dhat benches selected."],
          osEnviron := osEnv }
    else
      let loop := dhatLoop args.extra child benches 0 0
      Except.ok { code := loop.1, events := loop.2, osEnviron := osEnv }

/-- `handle_dhat` as in the source: `handle_dhat_table` at `DHAT_BENCHES`. -/
def handle_dhat (osEnv : List (String × String)) (child : Nat → Nat)
    (args : DhatArgs) : Except String HandleResult :=
  handle_dhat_table DHAT_BENCHES osEnv child args

/-- Python `f"{k:12}"`: left-justify `k` in a field of width 12 (no-op when
`k` is already at least 12 characters long). -/
def padTo12 (s : String) : String :=
  s ++ String.mk (List.replicate (12 - s.length) ' ')

/-- The line printed by `handle_list` for one registry entry:
`f"  {k:12} -> {v}"`. -/
def listEntryLine (p : String × String) : String :=
  "  " ++ padTo12 p.1 ++ " -> " ++ p.2

/-- `handle_list`: prints both registries in `key -> target` form and
returns 0.  It reads no environment and spawns nothing, so the result is a
closed value. -/
def handle_list (osEnv : List (String × String)) : HandleResult :=
  { code := 0,
    events :=
      Event.print "Criterion benches:"
        :: CRITERION_BENCHES.map (fun p => Event.print (listEntryLine p))
        ++ Event.print "\nDhat benches:"
        :: DHAT_BENCHES.map (fun p => Event.print (listEntryLine p)),
    osEnviron := osEnv }

/-- The valid values of the `--bench` option as declared in `parse_args`:
`choices=["all", *TABLE.keys()]`. -/
def benchChoices (table : List (String × String)) : List String :=
  "all" :: table.map Prod.fst

/-- Models the `argparse` validation of the `--bench` option in
`parse_args`: a value outside `choices` makes `argparse` print a usage
error to stderr and call `sys.exit(2)` before any handler runs (standard
`argparse.ArgumentParser.error` behaviour).  `Except.error` carries the
exit status 2. -/
def checkBenchChoice (table : List (String × String)) (s : String) :
    Except Nat String :=
  if s ∈ benchChoices table then Except.ok s else Except.error 2

/-- The whole process for a `run` command, from argument validation to the
exit status passed to `sys.exit`: `argparse` rejection exits 2; an uncaught
`KeyError` would terminate the interpreter with status 1 (unreachable once
the choice check passed); otherwise `handle_run`'s code is returned. -/
def program_run (osEnv : List (String × String)) (child : Nat → Nat)
    (benchChoice : String) (native : Bool) (extra : List String) :
    Nat × List Event :=
  match checkBenchChoice CRITERION_BENCHES benchChoice with
  | Except.error c =>
    (c, [Event.eprint ("error: argument --bench: invalid choice: " ++ benchChoice)])
  | Except.ok b =>
    match handle_run osEnv child { bench := b, native := native, extra := extra } with
    | Except.ok r => (r.code, r.events)
    | Except.error k => (1, [Event.eprint ("KeyError: " ++ k)])

/-- The whole process for a `dhat` command, analogous to `program_run`. -/
def program_dhat (osEnv : List (String × String)) (child : Nat → Nat)
    (benchChoice : String) (extra : List String) : Nat × List Event :=
  match checkBenchChoice DHAT_BENCHES benchChoice with
  | Except.error c =>
    (c, [Event.eprint ("error: argument --bench: invalid choice: " ++ benchChoice)])
  | Except.ok b =>
    match handle_dhat osEnv child { bench := b, extra := extra } with
    | Except.ok r => (r.code, r.events)
    | Except.error k => (1, [Event.eprint ("KeyError: " ++ k)])

/-- The child-process invocations of a trace, in order. -/
def execsOf : List Event → List (List String)
  | [] => []
  | Event.exec c _ :: rest => c :: execsOf rest
  | _ :: rest => execsOf rest

/-- The environments passed to the child-process invocations of a trace. -/
def execEnvsOf : List Event → List (Option (List (String × String)))
  | [] => []
  | Event.exec _ e :: rest => e :: execEnvsOf rest
  | _ :: rest => execEnvsOf rest

/-- Number of `os.environ.copy()` evaluations in a trace. -/
def envCopiesOf : List Event → Nat
  | [] => 0
  | Event.envCopy :: rest => envCopiesOf rest + 1
  | _ :: rest => envCopiesOf rest

/-- The stdout lines of a trace, in order. -/
def printsOf : List Event → List String
  | [] => []
  | Event.print s :: rest => s :: printsOf rest
  | _ :: rest => printsOf rest

/-- Bitwise OR of a list of exit codes, folded left from 0 — the
aggregation `code = 0; code |= ret` of the handlers, stated as the spec
states it. -/
def orAggregate (codes : List Nat) : Nat :=
  codes.foldl Nat.lor 0

/-- Immediate-announcement property of a trace: every child-process
invocation is directly preceded by a stdout line naming its bench target
(element 3 of the argument vector, the value after `--bench`). -/
def announcedEachExec (events : List Event) : Prop :=
  ∀ n cmd env, events[n]? = some (Event.exec cmd env) →
    1 ≤ n ∧ ∃ b, cmd[3]? = some b ∧
      events[n - 1]? = some (Event.print ("\n=== Running " ++ b ++ " ==="))

/-- `headMatches pat s` is true when `pat` is an initial segment of `s`. -/
def headMatches : List Char → List Char → Bool
  | [], _ => true
  | _ :: _, [] => false
  | a :: as, b :: bs => a == b && headMatches as bs

/-- `occursIn pat s` is true when `pat` occurs as a contiguous segment of
`s`. -/
def occursIn (pat : List Char) : List Char → Bool
  | [] => headMatches pat []
  | b :: bs => headMatches pat (b :: bs) || occursIn pat bs

/-- Substring test on strings (via their character lists):
`containsStr s pat = true` iff `pat` occurs contiguously in `s`. -/
def containsStr (s pat : String) : Bool :=
  occursIn pat.data s.data

section LoopLemmas

variable (envD : List (String × String)) (extra : List String) (child : Nat → Nat)

theorem runLoop_fst : ∀ (benches : List String) (i code : Nat),
    (runLoop envD extra child benches i code).1 =
      List.foldl Nat.lor code ((List.range' i benches.length).map child)
  | [], _, _ => rfl
  | _ :: rest, i, code => by
    simp only [runLoop, List.length_cons, List.range'_succ, List.map_cons,
      List.foldl_cons]
    exact runLoop_fst rest (i + 1) (Nat.lor code (child i))

theorem runLoop_execs : ∀ (benches : List String) (i code : Nat),
    execsOf (runLoop envD extra child benches i code).2 =
      benches.map (fun b => ["cargo", "bench", "--bench", b] ++ extra)
  | [], _, _ => rfl
  | _ :: rest, i, code => by
    simp only [runLoop, execsOf, List.map_cons, List.cons.injEq, true_and]
    exact runLoop_execs rest (i + 1) _

theorem runLoop_execEnvs : ∀ (benches : List String) (i code : Nat),
    execEnvsOf (runLoop envD extra child benches i code).2 =
      List.replicate benches.length (some envD)
  | [], _, _ => rfl
  | _ :: rest, i, code => by
    simp only [runLoop, execEnvsOf, List.length_cons, List.replicate_succ,
      List.cons.injEq, true_and]
    exact runLoop_execEnvs rest (i + 1) _

theorem runLoop_envCopies : ∀ (benches : List String) (i code : Nat),
    envCopiesOf (runLoop envD extra child benches i code).2 = 0
  | [], _, _ => rfl
  | _ :: rest, i, code => by
    simp only [runLoop, envCopiesOf]
    exact runLoop_envCopies rest (i + 1) _

theorem dhatLoop_fst : ∀ (benches : List String) (i code : Nat),
    (dhatLoop extra child benches i code).1 =
      List.foldl Nat.lor code ((List.range' i benches.length).map child)
  | [], _, _ => rfl
  | _ :: rest, i, code => by
    simp only [dhatLoop, List.length_cons, List.range'_succ, List.map_cons,
      List.foldl_cons]
    exact dhatLoop_fst rest (i + 1) (Nat.lor code (child i))

theorem dhatLoop_execs : ∀ (benches : List String) (i code : Nat),
    execsOf (dhatLoop extra child benches i code).2 =
      benches.map (fun b => dhatCmd b extra)
  | [], _, _ => rfl
  | _ :: rest, i, code => by
    simp only [dhatLoop, execsOf, List.map_cons, List.cons.injEq, true_and]
    exact dhatLoop_execs rest (i + 1) _

theorem dhatLoop_execEnvs : ∀ (benches : List String) (i code : Nat),
    execEnvsOf (dhatLoop extra child benches i code).2 =
      List.replicate benches.length none
  | [], _, _ => rfl
  | _ :: rest, i, code => by
    simp only [dhatLoop, execEnvsOf, List.length_cons, List.replicate_succ,
      List.cons.injEq, true_and]
    exact dhatLoop_execEnvs rest (i + 1) _

theorem dhatLoop_envCopies : ∀ (benches : List String) (i code : Nat),
    envCopiesOf (dhatLoop extra child benches i code).2 = 0
  | [], _, _ => rfl
  | _ :: rest, i, code => by
    simp only [dhatLoop, envCopiesOf]
    exact dhatLoop_envCopies rest (i + 1) _

end LoopLemmas

theorem announced_nil : announcedEachExec [] := by
  intro n cmd env h
  simp at h

theorem announced_cons_print (s : String) (evs : List Event)
    (h : announcedEachExec evs) :
    announcedEachExec (Event.print s :: evs) := by
  intro n cmd env hn
  match n with
  | 0 => simp at hn
  | n + 1 =>
    simp only [List.getElem?_cons_succ] at hn
    obtain ⟨h1, b, hb, hprev⟩ := h n cmd env hn
    refine ⟨Nat.le_add_left 1 n, b, hb, ?_⟩
    have h2 : n + 1 - 1 = (n - 1) + 1 := by omega
    rw [h2, List.getElem?_cons_succ]
    exact hprev

theorem announced_cons_pair (b : String) (cmd : List String)
    (env : Option (List (String × String))) (evs : List Event)
    (hb : cmd[3]? = some b) (h : announcedEachExec evs) :
    announcedEachExec
      (Event.print ("\n=== Running " ++ b ++ " ===") :: Event.exec cmd env :: evs) := by
  intro n cmd2 env2 hn
  match n with
  | 0 => simp at hn
  | 1 =>
    simp only [List.getElem?_cons_succ, List.getElem?_cons_zero,
      Option.some.injEq, Event.exec.injEq] at hn
    refine ⟨Nat.le_refl 1, b, ?_, ?_⟩
    · rw [← hn.1]; exact hb
    · rfl
  | n + 2 =>
    simp only [List.getElem?_cons_succ] at hn
    obtain ⟨h1, b2, hb2, hprev⟩ := h n cmd2 env2 hn
    refine ⟨by omega, b2, hb2, ?_⟩
    have h2 : n + 2 - 1 = (n - 1) + 2 := by omega
    rw [h2, List.getElem?_cons_succ, List.getElem?_cons_succ]
    exact hprev

theorem runLoop_announced (envD : List (String × String)) (extra : List String)
    (child : Nat → Nat) : ∀ (benches : List String) (i code : Nat),
    announcedEachExec (runLoop envD extra child benches i code).2
  | [], _, _ => announced_nil
  | bench :: rest, i, code => by
    simp only [runLoop]
    exact announced_cons_pair bench _ _ _ (by simp)
      (runLoop_announced envD extra child rest (i + 1) _)

theorem dhatLoop_announced (extra : List String) (child : Nat → Nat) :
    ∀ (benches : List String) (i code : Nat),
    announcedEachExec (dhatLoop extra child benches i code).2
  | [], _, _ => announced_nil
  | bench :: rest, i, code => by
    simp only [dhatLoop]
    refine announced_cons_pair bench _ _ _ ?_ (dhatLoop_announced extra child rest (i + 1) _)
    cases extra <;> rfl

theorem announced_cons_envCopy (evs : List Event) (h : announcedEachExec evs) :
    announcedEachExec (Event.envCopy :: evs) := by
  intro n cmd env hn
  match n with
  | 0 => simp at hn
  | n + 1 =>
    simp only [List.getElem?_cons_succ] at hn
    obtain ⟨h1, b, hb, hprev⟩ := h n cmd env hn
    refine ⟨Nat.le_add_left 1 n, b, hb, ?_⟩
    have h2 : n + 1 - 1 = (n - 1) + 1 := by omega
    rw [h2, List.getElem?_cons_succ]
    exact hprev

theorem dictGet_dictSet_self : ∀ (env : List (String × String)) (k v : String),
    dictGet (dictSet env k v) k = some v
  | [], k, v => by simp [dictGet, dictSet]
  | (k2, v2) :: rest, k, v => by
    by_cases h : k2 = k
    · subst h
      simp [dictGet, dictSet, List.find?]
    · have hbeq : (k2 == k) = false := beq_eq_false_iff_ne.mpr h
      simp only [dictSet, hbeq, Bool.false_eq_true, if_false, dictGet,
        List.find?, hbeq]
      exact dictGet_dictSet_self rest k v

theorem not_mem_benchChoices (table : List (String × String)) (s : String)
    (h1 : s ≠ "all") (h2 : dictGet table s = none) :
    s ∉ benchChoices table := by
  intro hmem
  have hnone : List.find? (fun p => p.1 == s) table = none := by
    cases hf : List.find? (fun p => p.1 == s) table with
    | none => rfl
    | some p => rw [dictGet, hf] at h2; simp at h2
  rcases List.mem_cons.mp hmem with h | h
  · exact h1 h
  · obtain ⟨p, hp, hfst⟩ := List.mem_map.mp h
    have hnp := List.find?_eq_none.mp hnone p hp
    apply hnp
    simp [hfst]

theorem handle_run_table_ok (table osEnv : List (String × String))
    (child : Nat → Nat) (args : RunArgs) (benches : List String)
    (h : benches_to_run args.bench table = Except.ok benches)
    (hne : benches ≠ []) :
    handle_run_table table osEnv child args = Except.ok
      { code := (runLoop (runEnvD osEnv args.native) args.extra child benches 0 0).1,
        events :=
          Event.envCopy :: (runLoop (runEnvD osEnv args.native) args.extra child benches 0 0).2,
        osEnviron := osEnv } := by
  have hie : benches.isEmpty = false := by
    cases benches with
    | nil => exact absurd rfl hne
    | cons b rest => rfl
  simp only [handle_run_table, h, hie, Bool.false_eq_true, if_false]

theorem handle_run_table_empty (table osEnv : List (String × String))
    (child : Nat → Nat) (args : RunArgs)
    (h : benches_to_run args.bench table = Except.ok []) :
    handle_run_table table osEnv child args = Except.ok
      { code := 1,
        events := [Event.envCopy, Event.eprint "No criterion benches selected."],
        osEnviron := osEnv } := by
  simp only [handle_run_table, h, List.isEmpty_nil, if_true]

theorem handle_dhat_table_ok (table osEnv : List (String × String))
    (child : Nat → Nat) (args : DhatArgs) (benches : List String)
    (h : benches_to_run args.bench table = Except.ok benches)
    (hne : benches ≠ []) :
    handle_dhat_table table osEnv child args = Except.ok
      { code := (dhatLoop args.extra child benches 0 0).1,
        events := (dhatLoop args.extra child benches 0 0).2,
        osEnviron := osEnv } := by
  have hie : benches.isEmpty = false := by
    cases benches with
    | nil => exact absurd rfl hne
    | cons b rest => rfl
  simp only [handle_dhat_table, h, hie, Bool.false_eq_true, if_false]

theorem handle_dhat_table_empty (table osEnv : List (String × String))
    (child : Nat → Nat) (args : DhatArgs)
    (h : benches_to_run args.bench table = Except.ok []) :
    handle_dhat_table table osEnv child args = Except.ok
      { code := 1,
        events := [Event.eprint "No dhat benches selected."],
        osEnviron := osEnv } := by
  simp only [handle_dhat_table, h, List.isEmpty_nil, if_true]

/-- Inverting a successful `handle_run_table` call: the selection resolved
to some bench list. -/
theorem handle_run_table_ok_inv (table osEnv : List (String × String))
    (child : Nat → Nat) (args : RunArgs) (r : HandleResult)
    (h : handle_run_table table osEnv child args = Except.ok r) :
    ∃ benches, benches_to_run args.bench table = Except.ok benches := by
  cases hbr : benches_to_run args.bench table with
  | ok benches => exact ⟨benches, rfl⟩
  | error k =>
    rw [handle_run_table, hbr] at h
    simp at h

/-- Inverting a successful `handle_dhat_table` call. -/
theorem handle_dhat_table_ok_inv (table osEnv : List (String × String))
    (child : Nat → Nat) (args : DhatArgs) (r : HandleResult)
    (h : handle_dhat_table table osEnv child args = Except.ok r) :
    ∃ benches, benches_to_run args.bench table = Except.ok benches := by
  cases hbr : benches_to_run args.bench table with
  | ok benches => exact ⟨benches, rfl⟩
  | error k =>
    rw [handle_dhat_table, hbr] at h
    simp at h

@[simp] theorem execsOf_nil : execsOf [] = [] := rfl

@[simp] theorem execsOf_print_cons (s : String) (l : List Event) :
    execsOf (Event.print s :: l) = execsOf l := rfl

@[simp] theorem execsOf_eprint_cons (s : String) (l : List Event) :
    execsOf (Event.eprint s :: l) = execsOf l := rfl

@[simp] theorem execsOf_envCopy_cons (l : List Event) :
    execsOf (Event.envCopy :: l) = execsOf l := rfl

@[simp] theorem execsOf_exec_cons (cmd : List String)
    (env : Option (List (String × String))) (l : List Event) :
    execsOf (Event.exec cmd env :: l) = cmd :: execsOf l := rfl

@[simp] theorem execEnvsOf_nil : execEnvsOf [] = [] := rfl

@[simp] theorem execEnvsOf_print_cons (s : String) (l : List Event) :
    execEnvsOf (Event.print s :: l) = execEnvsOf l := rfl

@[simp] theorem execEnvsOf_eprint_cons (s : String) (l : List Event) :
    execEnvsOf (Event.eprint s :: l) = execEnvsOf l := rfl

@[simp] theorem execEnvsOf_envCopy_cons (l : List Event) :
    execEnvsOf (Event.envCopy :: l) = execEnvsOf l := rfl

@[simp] theorem execEnvsOf_exec_cons (cmd : List String)
    (env : Option (List (String × String))) (l : List Event) :
    execEnvsOf (Event.exec cmd env :: l) = env :: execEnvsOf l := rfl

@[simp] theorem envCopiesOf_nil : envCopiesOf [] = 0 := rfl

@[simp] theorem envCopiesOf_print_cons (s : String) (l : List Event) :
    envCopiesOf (Event.print s :: l) = envCopiesOf l := rfl

@[simp] theorem envCopiesOf_eprint_cons (s : String) (l : List Event) :
    envCopiesOf (Event.eprint s :: l) = envCopiesOf l := rfl

@[simp] theorem envCopiesOf_envCopy_cons (l : List Event) :
    envCopiesOf (Event.envCopy :: l) = envCopiesOf l + 1 := rfl

@[simp] theorem envCopiesOf_exec_cons (cmd : List String)
    (env : Option (List (String × String))) (l : List Event) :
    envCopiesOf (Event.exec cmd env :: l) = envCopiesOf l := rfl

@[simp] theorem printsOf_nil : printsOf [] = [] := rfl

@[simp] theorem printsOf_print_cons (s : String) (l : List Event) :
    printsOf (Event.print s :: l) = s :: printsOf l := rfl

@[simp] theorem printsOf_eprint_cons (s : String) (l : List Event) :
    printsOf (Event.eprint s :: l) = printsOf l := rfl

@[simp] theorem printsOf_envCopy_cons (l : List Event) :
    printsOf (Event.envCopy :: l) = printsOf l := rfl

@[simp] theorem printsOf_exec_cons (cmd : List String)
    (env : Option (List (String × String))) (l : List Event) :
    printsOf (Event.exec cmd env :: l) = printsOf l := rfl

/-- C5: resolving the sentinel selection "all" returns all target
identifiers of the registry in declaration (insertion) order — the
registry is an ordered table and the result is exactly its value column —
and the length of the result equals the registry size. -/
theorem resolve_all_declaration_order (table : List (String × String)) :
    benches_to_run "all" table = Except.ok (table.map Prod.snd) ∧
    (table.map Prod.snd).length = table.length :=
  ⟨rfl, table.length_map Prod.snd⟩

/-- C7: for every key `k` registered in either registry, resolving `k`
returns a sequence of exactly one element, that element being the target
identifier registered for `k`. -/
theorem resolve_registered_key_singleton (k v : String) :
    (dictGet CRITERION_BENCHES k = some v →
      benches_to_run k CRITERION_BENCHES = Except.ok [v]) ∧
    (dictGet DHAT_BENCHES k = some v →
      benches_to_run k DHAT_BENCHES = Except.ok [v]) := by
  constructor
  · intro h
    have hk : (k == "all") = false := by
      apply beq_eq_false_iff_ne.mpr
      intro e
      rw [e, show dictGet CRITERION_BENCHES "all" = none from rfl] at h
      exact Option.noConfusion h
    simp only [benches_to_run, hk, Bool.false_eq_true, if_false, h]
  · intro h
    have hk : (k == "all") = false := by
      apply beq_eq_false_iff_ne.mpr
      intro e
      rw [e, show dictGet DHAT_BENCHES "all" = none from rfl] at h
      exact Option.noConfusion h
    simp only [benches_to_run, hk, Bool.false_eq_true, if_false, h]

/-- C7 witness: the registered keys "pipeline" and "build" resolve to the
singleton lists of their registered targets. -/
theorem resolve_registered_key_singleton_witness :
    benches_to_run "pipeline" CRITERION_BENCHES = Except.ok ["criterion_pipeline"] ∧
    benches_to_run "build" DHAT_BENCHES = Except.ok ["dhat_build"] :=
  ⟨(resolve_registered_key_singleton "pipeline" "criterion_pipeline").1 rfl,
   (resolve_registered_key_singleton "build" "dhat_build").2 rfl⟩

/-- C6: a `run` or `dhat` command whose resolved target list is empty
reports an error message on stderr, returns exit status 1, and performs no
child-process invocation.  (Stated over the handler logic generalised to
an arbitrary registry table, `handle_run_table`/`handle_dhat_table`: with
the two shipped registries the resolved list is never empty, so the guard
in `handle_run`/`handle_dhat` is only reachable for an empty table.) -/
theorem empty_selection_is_error :
    (∀ (table osEnv : List (String × String)) (child : Nat → Nat) (args : RunArgs),
      benches_to_run args.bench table = Except.ok [] →
      ∃ r, handle_run_table table osEnv child args = Except.ok r ∧
        r.code = 1 ∧ execsOf r.events = [] ∧
        Event.eprint "No criterion benches selected." ∈ r.events) ∧
    (∀ (table osEnv : List (String × String)) (child : Nat → Nat) (args : DhatArgs),
      benches_to_run args.bench table = Except.ok [] →
      ∃ r, handle_dhat_table table osEnv child args = Except.ok r ∧
        r.code = 1 ∧ execsOf r.events = [] ∧
        Event.eprint "No dhat benches selected." ∈ r.events) := by
  constructor
  · intro table osEnv child args h
    exact ⟨_, handle_run_table_empty table osEnv child args h, rfl, rfl, by simp⟩
  · intro table osEnv child args h
    exact ⟨_, handle_dhat_table_empty table osEnv child args h, rfl, rfl, by simp⟩

/-- C6 witness: with an empty registry table, selection "all" resolves to
the empty list and both handlers exit 1. -/
theorem empty_selection_is_error_witness :
    (∃ r, handle_run_table [] [] (fun _ => 0) ⟨"all", false, []⟩ = Except.ok r ∧
      r.code = 1) ∧
    (∃ r, handle_dhat_table [] [] (fun _ => 0) ⟨"all", []⟩ = Except.ok r ∧
      r.code = 1) := by
  constructor
  · obtain ⟨r, h1, h2, _⟩ :=
      empty_selection_is_error.1 [] [] (fun _ => 0) ⟨"all", false, []⟩ rfl
    exact ⟨r, h1, h2⟩
  · obtain ⟨r, h1, h2, _⟩ :=
      empty_selection_is_error.2 [] [] (fun _ => 0) ⟨"all", []⟩ rfl
    exact ⟨r, h1, h2⟩

/-- C8: the `list` command always returns exit status 0, performs zero
child-process invocations, leaves the process environment unchanged, and
prints both registries grouped by category, one `key -> target` line per
registry entry. -/
theorem list_exits_zero_enumerates (osEnv : List (String × String)) :
    (handle_list osEnv).code = 0 ∧
    execsOf (handle_list osEnv).events = [] ∧
    (handle_list osEnv).osEnviron = osEnv ∧
    printsOf (handle_list osEnv).events =
      "Criterion benches:" :: CRITERION_BENCHES.map listEntryLine
        ++ "\nDhat benches:" :: DHAT_BENCHES.map listEntryLine ∧
    (∀ p ∈ CRITERION_BENCHES,
      Event.print (listEntryLine p) ∈ (handle_list osEnv).events) ∧
    (∀ p ∈ DHAT_BENCHES,
      Event.print (listEntryLine p) ∈ (handle_list osEnv).events) := by
  have hev : (handle_list osEnv).events = (handle_list []).events := rfl
  refine ⟨rfl, rfl, rfl, rfl, ?_, ?_⟩ <;>
    (intro p hp; rw [hev]; fin_cases hp <;> decide)

/-- C8 witness: the pipeline entry of the measurement registry is printed
and the exit status is 0. -/
theorem list_exits_zero_enumerates_witness :
    (handle_list []).code = 0 ∧
    Event.print (listEntryLine ("pipeline", "criterion_pipeline")) ∈
      (handle_list []).events :=
  ⟨(list_exits_zero_enumerates []).1,
   (list_exits_zero_enumerates []).2.2.2.2.1 ("pipeline", "criterion_pipeline")
     (by decide)⟩

/-- C1: for every `run` or `dhat` command, the returned status is the
bitwise OR of the exit codes of all child invocations (in the oracle
`child`, code `child i` for the i-th spawn), and the invocations executed
are exactly the resolved bench list, in order, independent of the child
exit codes — so every invocation runs regardless of earlier failures and
there is no early termination. -/
theorem run_dhat_exit_or_aggregate :
    (∀ (osEnv : List (String × String)) (child : Nat → Nat) (args : RunArgs)
        (benches : List String),
      benches_to_run args.bench CRITERION_BENCHES = Except.ok benches →
      benches ≠ [] →
      ∃ r, handle_run osEnv child args = Except.ok r ∧
        r.code = orAggregate ((List.range benches.length).map child) ∧
        execsOf r.events =
          benches.map (fun b => ["cargo", "bench", "--bench", b] ++ args.extra)) ∧
    (∀ (osEnv : List (String × String)) (child : Nat → Nat) (args : DhatArgs)
        (benches : List String),
      benches_to_run args.bench DHAT_BENCHES = Except.ok benches →
      benches ≠ [] →
      ∃ r, handle_dhat osEnv child args = Except.ok r ∧
        r.code = orAggregate ((List.range benches.length).map child) ∧
        execsOf r.events = benches.map (fun b => dhatCmd b args.extra)) := by
  constructor
  · intro osEnv child args benches hbr hne
    refine ⟨_, handle_run_table_ok CRITERION_BENCHES osEnv child args benches hbr hne,
      ?_, ?_⟩
    · show (runLoop (runEnvD osEnv args.native) args.extra child benches 0 0).1 = _
      rw [runLoop_fst, orAggregate, List.range_eq_range']
    · show execsOf (Event.envCopy :: (runLoop _ _ child benches 0 0).2) = _
      rw [execsOf_envCopy_cons, runLoop_execs]
  · intro osEnv child args benches hbr hne
    refine ⟨_, handle_dhat_table_ok DHAT_BENCHES osEnv child args benches hbr hne,
      ?_, ?_⟩
    · show (dhatLoop args.extra child benches 0 0).1 = _
      rw [dhatLoop_fst, orAggregate, List.range_eq_range']
    · show execsOf (dhatLoop _ child benches 0 0).2 = _
      rw [dhatLoop_execs]

/-- C1 witness: with child exit codes `[0, 1, 0]` the aggregate of a
three-invocation run is 1; with `[0, 0, 0]` it is 0. -/
theorem run_dhat_exit_or_aggregate_witness :
    (∃ r, handle_run [] (fun i => if i = 1 then 1 else 0) ⟨"all", false, []⟩ =
        Except.ok r ∧ r.code = 1) ∧
    (∃ r, handle_run [] (fun _ => 0) ⟨"all", false, []⟩ = Except.ok r ∧
      r.code = 0) := by
  constructor
  · obtain ⟨r, h1, h2, _⟩ := run_dhat_exit_or_aggregate.1 []
      (fun i => if i = 1 then 1 else 0) ⟨"all", false, []⟩
      (CRITERION_BENCHES.map Prod.snd) rfl (by decide)
    exact ⟨r, h1, by rw [h2]; decide⟩
  · obtain ⟨r, h1, h2, _⟩ := run_dhat_exit_or_aggregate.1 [] (fun _ => 0)
      ⟨"all", false, []⟩ (CRITERION_BENCHES.map Prod.snd) rfl (by decide)
    exact ⟨r, h1, by rw [h2]; decide⟩

/-- C3: in every invocation executed by a `dhat` command, the argument
vector after the `"--"` separator (position 5 onwards, the separator being
element 4) is exactly `["--profile"]` when the caller supplied no extra
arguments, and exactly the supplied extras, in order and with no
`"--profile"` injected, when the caller supplied at least one — the
default flag and the user extras are mutually exclusive. -/
theorem dhat_profile_flag_exclusive (osEnv : List (String × String))
    (child : Nat → Nat) (args : DhatArgs) (r : HandleResult)
    (h : handle_dhat osEnv child args = Except.ok r) :
    ∀ cmd ∈ execsOf r.events, ∃ bench,
      cmd.take 5 = ["cargo", "bench", "--bench", bench, "--"] ∧
      cmd.drop 5 = (if args.extra = [] then ["--profile"] else args.extra) := by
  intro cmd hcmd
  obtain ⟨benches, hbr⟩ := handle_dhat_table_ok_inv DHAT_BENCHES osEnv child args r h
  by_cases hne : benches = []
  · subst hne
    rw [handle_dhat, handle_dhat_table_empty DHAT_BENCHES osEnv child args hbr] at h
    injection h with h
    rw [← h] at hcmd
    simp at hcmd
  · rw [handle_dhat, handle_dhat_table_ok DHAT_BENCHES osEnv child args benches hbr hne] at h
    injection h with h
    rw [← h] at hcmd
    replace hcmd : cmd ∈ execsOf (dhatLoop args.extra child benches 0 0).2 := hcmd
    rw [dhatLoop_execs] at hcmd
    obtain ⟨bench, hb, hcmdEq⟩ := List.mem_map.mp hcmd
    subst hcmdEq
    cases hx : args.extra with
    | nil => exact ⟨bench, rfl, rfl⟩
    | cons e es =>
      exact ⟨bench, rfl, rfl⟩

/-- C3 witness: with no extras every dhat invocation ends in
`["--profile"]`; with extras `["--x"]` it ends in `["--x"]`. -/
theorem dhat_profile_flag_exclusive_witness :
    (∃ r, handle_dhat [] (fun _ => 0) ⟨"all", []⟩ = Except.ok r ∧
      ∀ cmd ∈ execsOf r.events, cmd.drop 5 = ["--profile"]) ∧
    (∃ r, handle_dhat [] (fun _ => 0) ⟨"all", ["--x"]⟩ = Except.ok r ∧
      ∀ cmd ∈ execsOf r.events, cmd.drop 5 = ["--x"]) := by
  constructor
  · refine ⟨_, rfl, fun cmd hc => ?_⟩
    obtain ⟨b, h1, h2⟩ :=
      dhat_profile_flag_exclusive [] (fun _ => 0) ⟨"all", []⟩ _ rfl cmd hc
    simpa using h2
  · refine ⟨_, rfl, fun cmd hc => ?_⟩
    obtain ⟨b, h1, h2⟩ :=
      dhat_profile_flag_exclusive [] (fun _ => 0) ⟨"all", ["--x"]⟩ _ rfl cmd hc
    simpa using h2

/-- C4: in every `run` invocation with the native flag set, the
environment passed to the child holds, under `RUSTFLAGS`, exactly the
inherited `RUSTFLAGS` value (the empty string when the variable is
absent) with `" -C target-cpu=native"` appended. -/
theorem native_appends_to_rustflags (osEnv : List (String × String))
    (child : Nat → Nat) (args : RunArgs) (r : HandleResult)
    (hnat : args.native = true)
    (h : handle_run osEnv child args = Except.ok r) :
    ∀ e ∈ execEnvsOf r.events, ∃ d, e = some d ∧
      dictGet d "RUSTFLAGS" =
        some (dictGetD osEnv "RUSTFLAGS" "" ++ " -C target-cpu=native") := by
  intro e he
  obtain ⟨benches, hbr⟩ := handle_run_table_ok_inv CRITERION_BENCHES osEnv child args r h
  by_cases hne : benches = []
  · subst hne
    rw [handle_run, handle_run_table_empty CRITERION_BENCHES osEnv child args hbr] at h
    injection h with h
    rw [← h] at he
    simp at he
  · rw [handle_run, handle_run_table_ok CRITERION_BENCHES osEnv child args benches hbr hne] at h
    injection h with h
    rw [← h] at he
    replace he : e ∈ execEnvsOf
        (Event.envCopy ::
          (runLoop (runEnvD osEnv args.native) args.extra child benches 0 0).2) := he
    rw [execEnvsOf_envCopy_cons, runLoop_execEnvs] at he
    have heq := List.eq_of_mem_replicate he
    subst heq
    refine ⟨runEnvD osEnv args.native, rfl, ?_⟩
    rw [runEnvD, hnat]
    simp only [if_true]
    exact dictGet_dictSet_self osEnv "RUSTFLAGS" _

/-- C4 witness: prior value `"-Z foo"` yields
`"-Z foo -C target-cpu=native"` in every child environment. -/
theorem native_appends_to_rustflags_witness :
    ∃ r, handle_run [("RUSTFLAGS", "-Z foo")] (fun _ => 0) ⟨"all", true, []⟩ =
        Except.ok r ∧
      ∀ e ∈ execEnvsOf r.events, ∃ d, e = some d ∧
        dictGet d "RUSTFLAGS" = some "-Z foo -C target-cpu=native" := by
  refine ⟨_, rfl, fun e he => ?_⟩
  exact native_appends_to_rustflags [("RUSTFLAGS", "-Z foo")] (fun _ => 0)
    ⟨"all", true, []⟩ _ rfl rfl e he

/-- C2 counterexample: for the concrete unknown selection `"bogus"` the
process exits with status 2 — the `argparse` `choices` validation rejects
the value with a usage error — not with status 1 as claimed; no invocation
is attempted. -/
theorem unknown_selection_exit_two_not_one :
    (program_run [] (fun _ => 0) "bogus" false []).1 = 2 ∧
    ¬ (program_run [] (fun _ => 0) "bogus" false []).1 = 1 ∧
    execsOf (program_run [] (fun _ => 0) "bogus" false []).2 = [] ∧
    (program_dhat [] (fun _ => 0) "bogus" []).1 = 2 ∧
    ¬ (program_dhat [] (fun _ => 0) "bogus" []).1 = 1 ∧
    execsOf (program_dhat [] (fun _ => 0) "bogus" []).2 = [] :=
  ⟨rfl, by decide, rfl, rfl, by decide, rfl⟩

/-- C2 (amended): for every selection string that is neither `"all"` nor a
registered key, the argument parser rejects it before any handler runs: a
usage error is reported to the error stream, the process exits with status
2 (`argparse`'s exit code for invalid arguments, not 1), and no external
invocation is attempted. -/
theorem unknown_selection_rejected :
    (∀ (osEnv : List (String × String)) (child : Nat → Nat) (s : String)
        (native : Bool) (extra : List String),
      s ≠ "all" → dictGet CRITERION_BENCHES s = none →
      (program_run osEnv child s native extra).1 = 2 ∧
      execsOf (program_run osEnv child s native extra).2 = [] ∧
      (program_run osEnv child s native extra).2 =
        [Event.eprint ("error: argument --bench: invalid choice: " ++ s)]) ∧
    (∀ (osEnv : List (String × String)) (child : Nat → Nat) (s : String)
        (extra : List String),
      s ≠ "all" → dictGet DHAT_BENCHES s = none →
      (program_dhat osEnv child s extra).1 = 2 ∧
      execsOf (program_dhat osEnv child s extra).2 = [] ∧
      (program_dhat osEnv child s extra).2 =
        [Event.eprint ("error: argument --bench: invalid choice: " ++ s)]) := by
  constructor
  · intro osEnv child s native extra h1 h2
    have hnm := not_mem_benchChoices CRITERION_BENCHES s h1 h2
    have hc : checkBenchChoice CRITERION_BENCHES s = Except.error 2 := by
      rw [checkBenchChoice, if_neg hnm]
    simp [program_run, hc]
  · intro osEnv child s extra h1 h2
    have hnm := not_mem_benchChoices DHAT_BENCHES s h1 h2
    have hc : checkBenchChoice DHAT_BENCHES s = Except.error 2 := by
      rw [checkBenchChoice, if_neg hnm]
    simp [program_dhat, hc]

/-- C2 witness: the unregistered selection `"nope"` is rejected with exit
status 2 and zero invocations, for both commands. -/
theorem unknown_selection_rejected_witness :
    ((program_run [] (fun _ => 0) "nope" false []).1 = 2 ∧
      execsOf (program_run [] (fun _ => 0) "nope" false []).2 = []) ∧
    ((program_dhat [] (fun _ => 0) "nope" []).1 = 2 ∧
      execsOf (program_dhat [] (fun _ => 0) "nope" []).2 = []) :=
  ⟨⟨(unknown_selection_rejected.1 [] (fun _ => 0) "nope" false [] (by decide) rfl).1,
    (unknown_selection_rejected.1 [] (fun _ => 0) "nope" false [] (by decide) rfl).2.1⟩,
   ⟨(unknown_selection_rejected.2 [] (fun _ => 0) "nope" [] (by decide) rfl).1,
    (unknown_selection_rejected.2 [] (fun _ => 0) "nope" [] (by decide) rfl).2.1⟩⟩

/-- C9 counterexample: for the concrete invocation `dhat --bench build`,
the only line printed before the child-process call is
`"\n=== Running dhat_build ==="`; the rendered argument vector
`"cargo bench --bench dhat_build -- --profile"` occurs in no printed line
(so no print equals it either), hence the invocation is not announced with
its argument vector.  (`run_cmd`, the helper that would print
`"+ " + " ".join(cmd)`, is defined in the source but never called.) -/
theorem announcement_lacks_argument_vector :
    ∃ r, handle_dhat [] (fun _ => 0) ⟨"build", []⟩ = Except.ok r ∧
      r.events = [Event.print "\n=== Running dhat_build ===",
        Event.exec ["cargo", "bench", "--bench", "dhat_build", "--", "--profile"] none] ∧
      printsOf r.events = ["\n=== Running dhat_build ==="] ∧
      containsStr "\n=== Running dhat_build ==="
        (String.intercalate " "
          ["cargo", "bench", "--bench", "dhat_build", "--", "--profile"]) = false :=
  ⟨_, rfl, rfl, rfl, by decide⟩

/-- C9 (amended): every child-process invocation of a `run` or `dhat`
command is announced before it executes, by a stdout line of the form
`"\n=== Running {bench} ==="` naming the invocation's bench target (the
element after `--bench` in its argument vector) and printed immediately
before the spawn — but the announcement carries only the target name, not
the full argument vector. -/
theorem invocation_announced_before_exec :
    (∀ (osEnv : List (String × String)) (child : Nat → Nat) (args : RunArgs)
        (r : HandleResult),
      handle_run osEnv child args = Except.ok r → announcedEachExec r.events) ∧
    (∀ (osEnv : List (String × String)) (child : Nat → Nat) (args : DhatArgs)
        (r : HandleResult),
      handle_dhat osEnv child args = Except.ok r → announcedEachExec r.events) := by
  constructor
  · intro osEnv child args r h
    obtain ⟨benches, hbr⟩ := handle_run_table_ok_inv CRITERION_BENCHES osEnv child args r h
    by_cases hne : benches = []
    · subst hne
      rw [handle_run, handle_run_table_empty CRITERION_BENCHES osEnv child args hbr] at h
      injection h with h
      rw [← h]
      intro n cmd env hn
      rcases n with _ | _ | n <;> simp at hn
    · rw [handle_run, handle_run_table_ok CRITERION_BENCHES osEnv child args benches hbr hne] at h
      injection h with h
      rw [← h]
      exact announced_cons_envCopy _ (runLoop_announced _ _ _ benches 0 0)
  · intro osEnv child args r h
    obtain ⟨benches, hbr⟩ := handle_dhat_table_ok_inv DHAT_BENCHES osEnv child args r h
    by_cases hne : benches = []
    · subst hne
      rw [handle_dhat, handle_dhat_table_empty DHAT_BENCHES osEnv child args hbr] at h
      injection h with h
      rw [← h]
      intro n cmd env hn
      rcases n with _ | n <;> simp at hn
    · rw [handle_dhat, handle_dhat_table_ok DHAT_BENCHES osEnv child args benches hbr hne] at h
      injection h with h
      rw [← h]
      exact dhatLoop_announced _ _ benches 0 0

/-- C9 witness: a concrete `run --bench all` trace satisfies the
immediate-announcement property. -/
theorem invocation_announced_before_exec_witness :
    ∃ r, handle_run [] (fun _ => 0) ⟨"all", false, []⟩ = Except.ok r ∧
      announcedEachExec r.events :=
  ⟨_, rfl, invocation_announced_before_exec.1 [] (fun _ => 0) ⟨"all", false, []⟩ _ rfl⟩

/-- C10 counterexample: a single `run` command with three invocations
evaluates `os.environ.copy()` exactly once — the overlay is not derived
from a fresh copy per invocation, the same prepared dict is passed to all
three children. -/
theorem env_copied_once_not_per_invocation :
    ∃ r, handle_run [] (fun _ => 0) ⟨"all", true, []⟩ = Except.ok r ∧
      (execsOf r.events).length = 3 ∧ envCopiesOf r.events = 1 ∧
      ¬ envCopiesOf r.events = (execsOf r.events).length :=
  ⟨_, rfl, rfl, rfl, by decide⟩

/-- C10 (amended): no command mutates the inherited process environment in
place — `os.environ` is unchanged after every handler — and the overlay is
derived from a single copy of the inherited environment made once per
command and never mutated between invocations, so every invocation of a
`run` command receives the same overlay `runEnvD osEnv native`, a pure
function of the inherited environment (no invocation's overlay can leak
into another's); `dhat` children simply inherit the unmodified
environment. -/
theorem env_overlay_isolated :
    (∀ (osEnv : List (String × String)) (child : Nat → Nat) (args : RunArgs)
        (r : HandleResult),
      handle_run osEnv child args = Except.ok r →
      r.osEnviron = osEnv ∧ envCopiesOf r.events = 1 ∧
      ∀ e ∈ execEnvsOf r.events, e = some (runEnvD osEnv args.native)) ∧
    (∀ (osEnv : List (String × String)) (child : Nat → Nat) (args : DhatArgs)
        (r : HandleResult),
      handle_dhat osEnv child args = Except.ok r →
      r.osEnviron = osEnv ∧ envCopiesOf r.events = 0 ∧
      ∀ e ∈ execEnvsOf r.events, e = none) := by
  constructor
  · intro osEnv child args r h
    obtain ⟨benches, hbr⟩ := handle_run_table_ok_inv CRITERION_BENCHES osEnv child args r h
    by_cases hne : benches = []
    · subst hne
      rw [handle_run, handle_run_table_empty CRITERION_BENCHES osEnv child args hbr] at h
      injection h with h
      rw [← h]
      exact ⟨rfl, rfl, by simp⟩
    · rw [handle_run, handle_run_table_ok CRITERION_BENCHES osEnv child args benches hbr hne] at h
      injection h with h
      rw [← h]
      refine ⟨rfl, ?_, ?_⟩
      · show envCopiesOf (Event.envCopy :: (runLoop _ _ child benches 0 0).2) = 1
        rw [envCopiesOf_envCopy_cons, runLoop_envCopies]
      · intro e he
        replace he : e ∈ execEnvsOf
            (Event.envCopy ::
              (runLoop (runEnvD osEnv args.native) args.extra child benches 0 0).2) := he
        rw [execEnvsOf_envCopy_cons, runLoop_execEnvs] at he
        exact List.eq_of_mem_replicate he
  · intro osEnv child args r h
    obtain ⟨benches, hbr⟩ := handle_dhat_table_ok_inv DHAT_BENCHES osEnv child args r h
    by_cases hne : benches = []
    · subst hne
      rw [handle_dhat, handle_dhat_table_empty DHAT_BENCHES osEnv child args hbr] at h
      injection h with h
      rw [← h]
      exact ⟨rfl, rfl, by simp⟩
    · rw [handle_dhat, handle_dhat_table_ok DHAT_BENCHES osEnv child args benches hbr hne] at h
      injection h with h
      rw [← h]
      refine ⟨rfl, ?_, ?_⟩
      · show envCopiesOf (dhatLoop args.extra child benches 0 0).2 = 0
        rw [dhatLoop_envCopies]
      · intro e he
        replace he : e ∈ execEnvsOf (dhatLoop args.extra child benches 0 0).2 := he
        rw [dhatLoop_execEnvs] at he
        exact List.eq_of_mem_replicate he

/-- C10 witness: a concrete run leaves the inherited environment intact and
passes the same derived overlay to every child. -/
theorem env_overlay_isolated_witness :
    ∃ r, handle_run [("PATH", "/usr/bin")] (fun _ => 0) ⟨"all", false, []⟩ =
        Except.ok r ∧
      r.osEnviron = [("PATH", "/usr/bin")] ∧
      ∀ e ∈ execEnvsOf r.events, e = some [("PATH", "/usr/bin")] := by
  refine ⟨_, rfl, ?_, fun e he => ?_⟩
  · exact (env_overlay_isolated.1 [("PATH", "/usr/bin")] (fun _ => 0)
      ⟨"all", false, []⟩ _ rfl).1
  · exact (env_overlay_isolated.1 [("PATH", "/usr/bin")] (fun _ => 0)
      ⟨"all", false, []⟩ _ rfl).2.2 e he

end Bench
